import Mathlib

/-!
Shallow embedding of `bookshelf-validators` (`src/index.js`): a small
attribute validator for Bookshelf.js models.  The validator binds a record
(a key/value attribute store) and an optional declarative rule map, exposes
six rule methods (`required`, `match`, `minLength`, `maxLength`, `pattern`,
`unique`) and a bulk `validate()` that settles every declared rule and
aggregates the failure messages.

Promises are embedded by their settled outcome: each rule returns
`Except String Unit` (`.error msg` for a rejection carrying `msg`,
`.ok ()` for a resolution with no value).  `validate()` returns a
`ValidateResult` distinguishing resolution, rejection with the collected
message list, and rejection with a synchronously thrown error (the
`TypeError` raised when a declared rule name does not resolve to a
callable method).
-/

set_option maxHeartbeats 1000000

namespace BookshelfValidators

/-- JavaScript numbers as the validator uses them: `NaN` or an integer.
(The source only ever compares `.length` values and id columns, which are
integers; general doubles are not needed.) -/
inductive JSNum where
  | nan : JSNum
  | int : Int → JSNum
deriving DecidableEq

/-- JavaScript values flowing through the validator: primitives, arrays and
regular expressions.  A regex carries its literal source text and its
matching function on strings. -/
inductive JSVal where
  | undefined : JSVal
  | null : JSVal
  | bool : Bool → JSVal
  | num : JSNum → JSVal
  | str : String → JSVal
  | arr : List JSVal → JSVal
  | regex : String → (String → Bool) → JSVal

/-- JavaScript truthiness, as tested by `if (!value)` in every rule: the
falsy values are `undefined`, `null`, `false`, `NaN`, `0` and the empty
string; everything else (including empty arrays) is truthy. -/
def truthy : JSVal → Bool
  | .undefined => false
  | .null => false
  | .bool b => b
  | .num .nan => false
  | .num (.int i) => i != 0
  | .str s => !s.isEmpty
  | .arr _ => true
  | .regex _ _ => true

/-- JavaScript strict equality `===` as used by `match` and by the id
comparison in `unique`.  `NaN === NaN` is false; values of distinct types
are never equal.  Object values (arrays, regexes) compare by reference in
JavaScript; separately constructed objects are never `===`, which is what
the catch-all `false` models (the validator never compares an attribute
against the same object reference). -/
def jsStrictEq : JSVal → JSVal → Bool
  | .undefined, .undefined => true
  | .null, .null => true
  | .bool a, .bool b => a == b
  | .num (.int a), .num (.int b) => a == b
  | .str a, .str b => a == b
  | _, _ => false

mutual

/-- JavaScript `String(v)` conversion, used when a value is substituted into
a message template or used as a property key.  Arrays stringify as their
elements joined by commas, with `null`/`undefined` elements contributing
empty strings. -/
def jsToString : JSVal → String
  | .undefined => "undefined"
  | .null => "null"
  | .bool true => "true"
  | .bool false => "false"
  | .num .nan => "NaN"
  | .num (.int i) => toString i
  | .str s => s
  | .arr xs => String.intercalate "," (jsToStringJoin xs)
  | .regex src _ => src

/-- Element conversion for `Array.prototype.join`: `null` and `undefined`
become empty strings, other elements use `String(v)`. -/
def jsToStringJoin : List JSVal → List String
  | [] => []
  | .undefined :: rest => "" :: jsToStringJoin rest
  | .null :: rest => "" :: jsToStringJoin rest
  | v :: rest => jsToString v :: jsToStringJoin rest

end

/-- JavaScript `.length` property access: defined for strings and arrays,
`undefined` (here `none`) for every other value.  (JS string length counts
UTF-16 code units; the validator's messages and tests are ASCII, where this
agrees with the character count used here.) -/
def lengthOf : JSVal → Option Nat
  | .str s => some s.length
  | .arr xs => some xs.length
  | _ => none

/-- JavaScript `ToNumber` coercion for the right operand of the `<` / `>`
length comparisons.  Numeric strings parse as integers; array and regex
operands (which never occur as length bounds in this repository) are
approximated by `NaN`, which makes both comparisons false. -/
def toNumber : JSVal → JSNum
  | .undefined => .nan
  | .null => .int 0
  | .bool b => .int (if b then 1 else 0)
  | .num n => n
  | .str s => if s.trim.isEmpty then .int 0 else
      match s.trim.toInt? with
      | some i => .int i
      | none => .nan
  | .arr _ => .nan
  | .regex _ _ => .nan

/-- The comparison `value.length < testValue` of `minLength`: false when the
value has no `.length` (the comparison against `undefined` is a `NaN`
comparison) or when the bound coerces to `NaN`. -/
def lengthLt (len : Option Nat) (testValue : JSVal) : Bool :=
  match len, toNumber testValue with
  | some l, .int n => (l : Int) < n
  | _, _ => false

/-- The comparison `value.length > testValue` of `maxLength`. -/
def lengthGt (len : Option Nat) (testValue : JSVal) : Bool :=
  match len, toNumber testValue with
  | some l, .int n => (l : Int) > n
  | _, _ => false

/-- The test `value.match(testValue)` of `pattern`, as a boolean: a string
receiver is tested against the regex.  A non-string truthy receiver throws
a `TypeError` in JavaScript (`.match` is not a function); that case never
arises for this validator's string attributes and is modelled as a failed
match. -/
def jsMatch : JSVal → JSVal → Bool
  | .str s, .regex _ test => test s
  | _, _ => false

/-- A Bookshelf record as the validator sees it: an attribute store read via
`get`.  Attribute keys of a JavaScript object are unique; an association
list read from the front models it. -/
structure Record where
  attrs : List (String × JSVal)

/-- Bookshelf `model.get(key)`: the stored attribute value, `undefined` when
absent. -/
def Record.get (r : Record) (key : String) : JSVal :=
  ((r.attrs.find? (fun p => p.1 == key)).map Prod.snd).getD .undefined

/-- Resolution of the optional custom message: every rule does
`if (!message) { message = default }`, so a missing or empty (falsy) custom
message falls back to the default. -/
def resolveMsg (message : Option String) (dflt : String) : String :=
  match message with
  | some m => if m.isEmpty then dflt else m
  | none => dflt

/-- Helper for the placeholder scan: split a character list at its first
closing brace, returning the part before it and the part after it, or
`none` when the list contains no closing brace. -/
def splitAtCloseBrace : List Char → Option (List Char × List Char)
  | [] => none
  | c :: cs =>
    if c == '\x7d' then some ([], cs)
    else
      match splitAtCloseBrace cs with
      | some (inside, rest) => some (c :: inside, rest)
      | none => none

/-- One step of the `fmt` loop's regex search: the first match of
`#\x7b[^\x7d]*\x7d` in the string, returned as the prefix before the match
and the suffix after it.  When the first `#\x7b` is never followed by a
closing brace, no later start position can match either (a later match
would need a closing brace in the same remainder), so the scan reports no
match, exactly as the JavaScript regex does. -/
def findPH : List Char → Option (List Char × List Char)
  | [] => none
  | c :: cs =>
    if c == '#' && cs.head? == some '\x7b' then
      match splitAtCloseBrace cs.tail with
      | some (_, after) => some ([], after)
      | none => none
    else
      (findPH cs).map (fun p => (c :: p.1, p.2))

/-- Fuel-bounded body of `fmt`'s `while` loop: as long as a placeholder
remains, replace the first one with the next value (JavaScript reads
`values[i]` past the end of the array as `undefined`, which stringifies to
`"undefined"`).  Each iteration consumes a placeholder of at least three
characters; substituted values are each used once and `"undefined"`
contains no placeholder and cannot create one across a boundary, so the
loop performs at most `values.length` plus the final string length many
iterations — the fuel chosen in `fmt` below always suffices. -/
def fmtCore : Nat → List Char → List String → List Char
  | 0, s, _ => s
  | k + 1, s, vals =>
    match findPH s with
    | none => s
    | some (before, after) =>
      fmtCore k (before ++ (vals.headD "undefined").data ++ after) vals.tail

/-- The private `fmt` helper of `src/index.js`: repeatedly substitute the
first `#\x7b...\x7d` placeholder of the template by the next positional
value. -/
def fmt (template : String) (values : List String) : String :=
  ⟨fmtCore
    (template.data.length + values.foldr (fun v acc => v.data.length + acc) 0 +
      values.length + 1)
    template.data values⟩

/-- Default message template of `required`. -/
def requiredTemplate : String := "#\x7battribute\x7d is required"

/-- Default message template of `match`. -/
def matchTemplate : String := "#\x7battribute\x7d must match #\x7btestValue\x7d"

/-- Default message template of `minLength`. -/
def minLengthTemplate : String :=
  "#\x7battribute\x7d must be at least #\x7btestValue\x7d characters long"

/-- Default message template of `maxLength`. -/
def maxLengthTemplate : String :=
  "#\x7battribute\x7d must be at most #\x7btestValue\x7d characters long"

/-- Default message template of `pattern`.  Note the argument order at the
call site in the source: `fmt(template, value, attribute)` — the record's
current value first, then the attribute name. -/
def patternTemplate : String := "'#\x7bvalue\x7d' is not a valid #\x7battribute\x7d"

/-- Default message template of `unique`. -/
def uniqueTemplate : String := "#\x7battribute\x7d must be unique"

/-- `Validator.prototype.required`: rejects with the (custom or default)
message exactly when the attribute's current value is falsy. -/
def required (r : Record) (attr : String) (_testValue : JSVal)
    (message : Option String) : Except String Unit :=
  let value := r.get attr
  let msg := resolveMsg message (fmt requiredTemplate [attr])
  if truthy value then .ok () else .error msg

/-- `Validator.prototype.match` (named `matchRule` because `match` is
reserved in Lean): rejects when the attribute's value and the value of the
attribute named by `testValue` are not strictly equal. -/
def matchRule (r : Record) (attr : String) (testValue : JSVal)
    (message : Option String) : Except String Unit :=
  let value := r.get attr
  let matchValue := r.get (jsToString testValue)
  let msg := resolveMsg message (fmt matchTemplate [attr, jsToString testValue])
  if jsStrictEq value matchValue then .ok () else .error msg

/-- `Validator.prototype.minLength`: resolves unconditionally on a falsy
value, otherwise rejects when `value.length < testValue`. -/
def minLength (r : Record) (attr : String) (testValue : JSVal)
    (message : Option String) : Except String Unit :=
  let value := r.get attr
  if !truthy value then .ok ()
  else
    let msg := resolveMsg message (fmt minLengthTemplate [attr, jsToString testValue])
    if lengthLt (lengthOf value) testValue then .error msg else .ok ()

/-- `Validator.prototype.maxLength`: resolves unconditionally on a falsy
value, otherwise rejects when `value.length > testValue`. -/
def maxLength (r : Record) (attr : String) (testValue : JSVal)
    (message : Option String) : Except String Unit :=
  let value := r.get attr
  if !truthy value then .ok ()
  else
    let msg := resolveMsg message (fmt maxLengthTemplate [attr, jsToString testValue])
    if lengthGt (lengthOf value) testValue then .error msg else .ok ()

/-- `Validator.prototype.pattern`: resolves unconditionally on a falsy
value, otherwise rejects when `value.match(testValue)` finds no match.  The
default message substitutes the record's value first, then the attribute
name. -/
def pattern (r : Record) (attr : String) (testValue : JSVal)
    (message : Option String) : Except String Unit :=
  let value := r.get attr
  if !truthy value then .ok ()
  else
    let msg := resolveMsg message (fmt patternTemplate [jsToString value, attr])
    if jsMatch value testValue then .ok () else .error msg

/-- `Validator.prototype.unique`: resolves unconditionally on a falsy value
without querying; otherwise fetches one persisted record with the same
attribute value (`collection().query({where: ...}).fetchOne()`, modelled as
the first match in the backing list) and rejects exactly when a record is
found whose id differs (`found.id !== this.record.get('id')`). -/
def unique (db : List Record) (r : Record) (attr : String)
    (_testValue : JSVal) (message : Option String) : Except String Unit :=
  let value := r.get attr
  if !truthy value then .ok ()
  else
    let msg := resolveMsg message (fmt uniqueTemplate [attr])
    match db.find? (fun rec => jsStrictEq (rec.get attr) value) with
    | none => .ok ()
    | some found =>
      if jsStrictEq (found.get "id") (r.get "id") then .ok () else .error msg

/-- A declared rule value in the rule map: either a raw test value, or the
structured `\x7btestValue, message\x7d` form that `_.isPlainObject`
recognises. -/
inductive RuleArg where
  | raw : JSVal → RuleArg
  | structured : JSVal → Option String → RuleArg

/-- Unpacking of a declared rule value into the `(testValue, message)` pair
passed to the rule method. -/
def resolveArg : RuleArg → JSVal × Option String
  | .raw v => (v, none)
  | .structured tv m => (tv, m)

/-- The six own rule methods of `Validator.prototype` form the closed rule
set. -/
def isRuleName (name : String) : Bool :=
  name == "required" || name == "match" || name == "minLength" ||
  name == "maxLength" || name == "pattern" || name == "unique"

/-- Inherited `Object.prototype` members for which `this[validationName]`
resolves to a callable function returning a non-promise value:
`Promise.settle` treats the returned plain value as an already-fulfilled
result, so such an entry contributes no failure and is silently swallowed.
(The remaining callable members, `validate` and `constructor`, behave
differently again and are listed in `isUnmodelledName`.) -/
def isSwallowedName (name : String) : Bool :=
  name == "toString" || name == "toLocaleString" || name == "valueOf" ||
  name == "hasOwnProperty" || name == "isPrototypeOf" ||
  name == "propertyIsEnumerable" || name == "__lookupGetter__" ||
  name == "__lookupSetter__"

/-- Prototype members that are callable in the source but whose invocation
as a declared rule is not modelled: `validate` re-enters the aggregation on
the same rule map and recurses without bound (the process dies of stack
exhaustion, it never rejects with a clean `TypeError`), and `constructor`
reassigns the validator's `record` and `validations` fields mid-iteration.
`dispatch` below maps these two names to its `none` branch only as a
placeholder; every theorem about unknown-name behaviour excludes them
through an `isUnmodelledName _ = false` hypothesis. -/
def isUnmodelledName (name : String) : Bool :=
  name == "validate" || name == "constructor"

/-- Dynamic dispatch `this[validationName](attr, testValue, message)` of
`validate()`.  The six rule names call the corresponding method.  A name
colliding with a value-returning inherited member (see
`isSwallowedName`) calls it and the non-promise result settles as
fulfilled.  Any other name yields `none`, modelling the `TypeError` thrown
because `this[validationName]` is not callable (`undefined`, a non-function
property such as `record`, or `__defineGetter__` called with a non-function
test value).  The two callable names of `isUnmodelledName` (`validate`,
`constructor`) also land in the `none` branch, where the model is *not*
faithful — the source recurses or mutates there instead of throwing — so
every theorem drawing a `typeError` conclusion carries an
`isUnmodelledName _ = false` hypothesis. -/
def dispatch (db : List Record) (r : Record) (name attr : String)
    (tv : JSVal) (msg : Option String) : Option (Except String Unit) :=
  if name = "required" then some (required r attr tv msg)
  else if name = "match" then some (matchRule r attr tv msg)
  else if name = "minLength" then some (minLength r attr tv msg)
  else if name = "maxLength" then some (maxLength r attr tv msg)
  else if name = "pattern" then some (pattern r attr tv msg)
  else if name = "unique" then some (unique db r attr tv msg)
  else if isSwallowedName name then some (.ok ())
  else none

/-- A declarative rule map, in iteration order: for each attribute (object
keys iterate in insertion order), the list of declared rules. -/
abbrev Validations := List (String × List (String × RuleArg))

/-- The flattening performed by the nested `reduce` calls of `validate()`:
one `(attribute, ruleName, declaredValue)` entry per declared rule, in
declaration order (attribute order, then rule order within each
attribute). -/
def flattenRules (vs : Validations) : List (String × String × RuleArg) :=
  (vs.map (fun p => p.2.map (fun q => (p.1, q.1, q.2)))).flatten

/-- Construction of the promise array inside `validate()`: each entry
dispatches its rule; the first entry whose name does not resolve to a
callable throws, aborting the construction (`.error name`). -/
def buildResults (db : List Record) (r : Record) :
    List (String × String × RuleArg) → Except String (List (Except String Unit))
  | [] => .ok []
  | (attr, name, arg) :: rest =>
    let pair := resolveArg arg
    match dispatch db r name attr pair.1 pair.2 with
    | none => .error name
    | some res =>
      match buildResults db r rest with
      | .ok others => .ok (res :: others)
      | .error e => .error e

/-- Outcome of `validate()`: resolution with no value, rejection with an
error carrying the collected `messages` list, or rejection with an error
thrown synchronously while building the promise array (the `TypeError` for
an unknown rule name — a distinct error kind without a `messages` list). -/
inductive ValidateResult where
  | ok : ValidateResult
  | failures : List String → ValidateResult
  | typeError : String → ValidateResult
deriving DecidableEq

/-- `Validator.prototype.validate`: build one promise per declared rule,
settle them all, keep the rejection messages in declaration order
(`Promise.settle` preserves array order, and the `filter`/`map` over the
settled results preserves it again), and resolve when no message was
collected. -/
def validate (db : List Record) (r : Record) (vs : Validations) : ValidateResult :=
  match buildResults db r (flattenRules vs) with
  | .error name => .typeError name
  | .ok results =>
    let messages := results.filterMap (fun res =>
      match res with
      | .error m => some m
      | .ok _ => none)
    if messages.isEmpty then .ok else .failures messages

/-! ### Placeholder-substitution lemmas

The `fmt` loop rescans the whole string after each substitution, so a
substituted value containing a `#\x7b` of its own would be substituted
into.  The message-shape lemmas therefore assume `noHashBrace` of the
substituted values: no adjacent `#` `\x7b` pair, the well-formedness
condition under which `fmt` fills each placeholder with its positional
value and leaves the rest of the template intact. -/

/-- No occurrence of an adjacent `#` `\x7b` pair, hence no placeholder can
start inside (or at the boundary into) this character list. -/
def noHashBrace : List Char → Bool
  | [] => true
  | c :: cs => !(c == '#' && cs.head? == some '\x7b') && noHashBrace cs

theorem noHashBrace_cons_elim {c : Char} {cs : List Char}
    (h : noHashBrace (c :: cs) = true) :
    (c == '#' && cs.head? == some '\x7b') = false ∧ noHashBrace cs = true := by
  have h' : (!(c == '#' && cs.head? == some '\x7b') && noHashBrace cs) = true := h
  rw [Bool.and_eq_true, Bool.not_eq_true'] at h'
  exact h'

theorem findPH_eq_none : ∀ {l : List Char}, noHashBrace l = true → findPH l = none
  | [], _ => rfl
  | c :: cs, h => by
    obtain ⟨h1, h2⟩ := noHashBrace_cons_elim h
    simp only [findPH, h1]
    rw [findPH_eq_none h2]
    rfl

theorem hashBrace_head_cond {c : Char} {a' rest : List Char}
    (hc : (c == '#' && a'.head? == some '\x7b') = false)
    (h2 : (c :: a').getLast? = some '#' → rest.head? ≠ some '\x7b') :
    (c == '#' && (a' ++ rest).head? == some '\x7b') = false := by
  cases a' with
  | nil =>
    cases hch : c == '#' with
    | false => simp [hch]
    | true =>
      have hceq : c = '#' := beq_iff_eq.mp hch
      have hne : rest.head? ≠ some '\x7b' := h2 (by simp [hceq])
      simp only [List.nil_append, hch, Bool.true_and]
      exact beq_eq_false_iff_ne.mpr hne
  | cons d a'' =>
    simp only [List.head?_cons] at hc
    simpa only [List.cons_append, List.head?_cons] using hc

theorem getLast_cons_shift {c : Char} {a' rest : List Char}
    (h2 : (c :: a').getLast? = some '#' → rest.head? ≠ some '\x7b') :
    a'.getLast? = some '#' → rest.head? ≠ some '\x7b' := by
  intro hl
  apply h2
  cases a' with
  | nil => simp at hl
  | cons d a'' => rw [List.getLast?_cons_cons]; exact hl

theorem findPH_cons_neg {c : Char} {cs : List Char}
    (h : (c == '#' && cs.head? == some '\x7b') = false) :
    findPH (c :: cs) = (findPH cs).map (fun p => (c :: p.1, p.2)) := by
  simp [findPH, h]

theorem findPH_append : ∀ (a rest : List Char), noHashBrace a = true →
    (a.getLast? = some '#' → rest.head? ≠ some '\x7b') →
    findPH (a ++ rest) = (findPH rest).map (fun p => (a ++ p.1, p.2))
  | [], rest, _, _ => by cases hr : findPH rest <;> simp [hr]
  | c :: a', rest, h1, h2 => by
    obtain ⟨hc, hA'⟩ := noHashBrace_cons_elim h1
    have hcond := hashBrace_head_cond hc h2
    rw [List.cons_append, findPH_cons_neg hcond,
      findPH_append a' rest hA' (getLast_cons_shift h2)]
    cases findPH rest <;> simp

theorem noHashBrace_append : ∀ (a b : List Char), noHashBrace a = true →
    noHashBrace b = true →
    (a.getLast? = some '#' → b.head? ≠ some '\x7b') →
    noHashBrace (a ++ b) = true
  | [], _, _, hb, _ => hb
  | c :: a', b, h1, hb, h2 => by
    obtain ⟨hc, hA'⟩ := noHashBrace_cons_elim h1
    have hcond := hashBrace_head_cond hc h2
    have hrest := noHashBrace_append a' b hA' hb (getLast_cons_shift h2)
    simp only [List.cons_append, noHashBrace, Bool.and_eq_true, Bool.not_eq_true']
    exact ⟨hcond, hrest⟩

theorem fmtCore_step {k : Nat} {s : List Char} {vals : List String}
    {before after : List Char} (h : findPH s = some (before, after)) :
    fmtCore (k + 1) s vals =
      fmtCore k (before ++ (vals.headD "undefined").data ++ after) vals.tail := by
  simp [fmtCore, h]

theorem fmtCore_of_none {k : Nat} {s : List Char} {vals : List String}
    (h : findPH s = none) : fmtCore k s vals = s := by
  cases k <;> simp [fmtCore, h]

theorem strDataAppend (a b : String) : (a ++ b).data = a.data ++ b.data := by
  cases a; cases b; rfl

theorem mk_data_eq {l : List Char} {s : String} (h : l = s.data) :
    String.mk l = s := by
  cases s; exact congrArg String.mk h

/-- Substitution of a single value into a one-placeholder template: the
placeholder is replaced by the value and the surrounding literal text is
preserved. -/
theorem fmt_one_eq (t v1 : String) (b0 a0 : List Char)
    (h0 : findPH t.data = some (b0, a0))
    (hb0 : noHashBrace b0 = true) (ha0 : noHashBrace a0 = true)
    (hv1 : noHashBrace v1.data = true)
    (hb0' : b0.getLast? ≠ some '#')
    (ha0h : a0.head? ≠ some '\x7b') :
    fmt t [v1] = ⟨b0 ++ v1.data ++ a0⟩ := by
  have hnone : findPH (b0 ++ v1.data ++ a0) = none := by
    rw [List.append_assoc]
    exact findPH_eq_none
      (noHashBrace_append b0 (v1.data ++ a0) hb0
        (noHashBrace_append v1.data a0 hv1 ha0 (fun _ => ha0h))
        (fun hl => (hb0' hl).elim))
  have key : ∀ k, 1 ≤ k → fmtCore k t.data [v1] = b0 ++ v1.data ++ a0 := by
    intro k hk
    obtain ⟨k1, rfl⟩ : ∃ k1, k = k1 + 1 := ⟨k - 1, by omega⟩
    rw [fmtCore_step h0]
    simp only [List.headD_cons, List.tail_cons]
    exact fmtCore_of_none hnone
  have hF : 1 ≤ t.data.length +
      [v1].foldr (fun v acc => v.data.length + acc) 0 + [v1].length + 1 := by
    have hlen : ([v1] : List String).length = 1 := rfl
    omega
  exact congrArg String.mk (key _ hF)

/-- Substitution of two values into a two-placeholder template, in
positional order. -/
theorem fmt_two_eq (t v1 v2 : String) (b0 a0 b1 a1 : List Char)
    (h0 : findPH t.data = some (b0, a0))
    (h1 : findPH a0 = some (b1, a1))
    (hb0 : noHashBrace b0 = true) (hb1 : noHashBrace b1 = true)
    (ha1 : noHashBrace a1 = true)
    (hv1 : noHashBrace v1.data = true) (hv2 : noHashBrace v2.data = true)
    (hb0' : b0.getLast? ≠ some '#') (hb1' : b1.getLast? ≠ some '#')
    (ha0h : a0.head? ≠ some '\x7b') (hb1h : b1.head? ≠ some '\x7b')
    (ha1h : a1.head? ≠ some '\x7b') (hb1ne : b1 ≠ []) :
    fmt t [v1, v2] = ⟨b0 ++ v1.data ++ b1 ++ v2.data ++ a1⟩ := by
  have hAB : noHashBrace (b0 ++ v1.data) = true :=
    noHashBrace_append b0 v1.data hb0 hv1 (fun hl => (hb0' hl).elim)
  have hs1 : findPH (b0 ++ v1.data ++ a0) = some (b0 ++ (v1.data ++ b1), a1) := by
    rw [List.append_assoc,
      findPH_append b0 (v1.data ++ a0) hb0 (fun hl => (hb0' hl).elim),
      findPH_append v1.data a0 hv1 (fun _ => ha0h), h1]
    rfl
  have hnone : findPH (b0 ++ (v1.data ++ b1) ++ v2.data ++ a1) = none := by
    have hlist : b0 ++ (v1.data ++ b1) ++ v2.data ++ a1
        = (b0 ++ v1.data) ++ (b1 ++ (v2.data ++ a1)) := by
      simp [List.append_assoc]
    rw [hlist]
    apply findPH_eq_none
    apply noHashBrace_append (b0 ++ v1.data) (b1 ++ (v2.data ++ a1)) hAB
    · exact noHashBrace_append b1 (v2.data ++ a1) hb1
        (noHashBrace_append v2.data a1 hv2 ha1 (fun _ => ha1h))
        (fun hl => (hb1' hl).elim)
    · intro _hl
      cases b1 with
      | nil => exact absurd rfl hb1ne
      | cons x xs =>
        have hx := hb1h
        simp only [List.head?_cons] at hx
        simpa only [List.cons_append, List.head?_cons] using hx
  have key : ∀ k, 2 ≤ k →
      fmtCore k t.data [v1, v2] = b0 ++ (v1.data ++ b1) ++ v2.data ++ a1 := by
    intro k hk
    obtain ⟨k1, rfl⟩ : ∃ k1, k = k1 + 1 + 1 := ⟨k - 2, by omega⟩
    rw [fmtCore_step h0]
    simp only [List.headD_cons, List.tail_cons]
    rw [fmtCore_step hs1]
    simp only [List.headD_cons, List.tail_cons]
    exact fmtCore_of_none hnone
  have hF : 2 ≤ t.data.length +
      [v1, v2].foldr (fun v acc => v.data.length + acc) 0 + [v1, v2].length + 1 := by
    have hlen : ([v1, v2] : List String).length = 2 := rfl
    omega
  have hmain : fmt t [v1, v2] = String.mk (b0 ++ (v1.data ++ b1) ++ v2.data ++ a1) :=
    congrArg String.mk (key _ hF)
  exact hmain.trans (congrArg String.mk (by simp [List.append_assoc]))

/-- Default message of `required`, for a placeholder-free attribute name. -/
theorem fmt_required (attr : String) (h : noHashBrace attr.data = true) :
    fmt requiredTemplate [attr] = attr ++ " is required" := by
  rw [fmt_one_eq requiredTemplate attr [] (" is required").data (by decide) rfl
    (by decide) h (by decide) (by decide)]
  exact mk_data_eq (by simp [strDataAppend])

/-- Default message of `unique`, for a placeholder-free attribute name. -/
theorem fmt_unique (attr : String) (h : noHashBrace attr.data = true) :
    fmt uniqueTemplate [attr] = attr ++ " must be unique" := by
  rw [fmt_one_eq uniqueTemplate attr [] (" must be unique").data (by decide) rfl
    (by decide) h (by decide) (by decide)]
  exact mk_data_eq (by simp [strDataAppend])

/-- Default message of `match`: attribute name first, then the compared
attribute's name. -/
theorem fmt_match (a b : String) (ha : noHashBrace a.data = true)
    (hb : noHashBrace b.data = true) :
    fmt matchTemplate [a, b] = a ++ (" must match " ++ b) := by
  rw [fmt_two_eq matchTemplate a b [] (" must match #\x7btestValue\x7d").data
    (" must match ").data [] (by decide) (by decide) rfl (by decide) rfl ha hb
    (by decide) (by decide) (by decide) (by decide) (by decide) (by decide)]
  exact mk_data_eq (by simp [strDataAppend])

/-- Default message of `minLength`: attribute name first, then the bound. -/
theorem fmt_minLength (a n : String) (ha : noHashBrace a.data = true)
    (hn : noHashBrace n.data = true) :
    fmt minLengthTemplate [a, n] = a ++ (" must be at least " ++ (n ++ " characters long")) := by
  rw [fmt_two_eq minLengthTemplate a n []
    (" must be at least #\x7btestValue\x7d characters long").data
    (" must be at least ").data (" characters long").data (by decide) (by decide)
    rfl (by decide) (by decide) ha hn (by decide) (by decide) (by decide)
    (by decide) (by decide) (by decide)]
  exact mk_data_eq (by simp [strDataAppend])

/-- Default message of `maxLength`: attribute name first, then the bound. -/
theorem fmt_maxLength (a n : String) (ha : noHashBrace a.data = true)
    (hn : noHashBrace n.data = true) :
    fmt maxLengthTemplate [a, n] = a ++ (" must be at most " ++ (n ++ " characters long")) := by
  rw [fmt_two_eq maxLengthTemplate a n []
    (" must be at most #\x7btestValue\x7d characters long").data
    (" must be at most ").data (" characters long").data (by decide) (by decide)
    rfl (by decide) (by decide) ha hn (by decide) (by decide) (by decide)
    (by decide) (by decide) (by decide)]
  exact mk_data_eq (by simp [strDataAppend])

/-- Default message of `pattern`: the record's current value is substituted
first, then the attribute name — the argument order of the `fmt` call in
the source. -/
theorem fmt_pattern (v a : String) (hv : noHashBrace v.data = true)
    (ha : noHashBrace a.data = true) :
    fmt patternTemplate [v, a] = "'" ++ (v ++ ("' is not a valid " ++ a)) := by
  rw [fmt_two_eq patternTemplate v a ("'").data
    ("' is not a valid #\x7battribute\x7d").data ("' is not a valid ").data []
    (by decide) (by decide) (by decide) (by decide) rfl hv ha (by decide)
    (by decide) (by decide) (by decide) (by decide) (by decide)]
  exact mk_data_eq (by simp [strDataAppend])

/-! ### Supporting characterisations -/

theorem isEmpty_false_of_ne {c : String} (hc : c ≠ "") : c.isEmpty = false := by
  cases hcc : c.isEmpty
  · rfl
  · exact absurd ((String.isEmpty_iff _).mp hcc) hc

/-- The falsy values are exactly `undefined`, `null`, `false`, `NaN`, `0`
and the empty string. -/
theorem truthy_eq_false_iff (v : JSVal) :
    truthy v = false ↔ (v = .undefined ∨ v = .null ∨ v = .bool false ∨
      v = .num .nan ∨ v = .num (.int 0) ∨ v = .str "") := by
  cases v with
  | undefined => simp [truthy]
  | null => simp [truthy]
  | bool b => cases b <;> simp [truthy]
  | num n =>
    cases n with
    | nan => simp [truthy]
    | int i => simp [truthy]
  | str s => simp [truthy, String.isEmpty_iff]
  | arr xs => simp [truthy]
  | regex src t => simp [truthy]

/-! ### Claims -/

/-- C2: for every attribute whose current record value is falsy, and for
every test value (bound or pattern) and message, `minLength`, `maxLength`
and `pattern` pass unconditionally without testing the bound or pattern,
and `unique` passes for every backing collection, i.e. without querying
it. -/
theorem falsy_short_circuit_c2 (r : Record) (attr : String) (tv : JSVal)
    (m : Option String) (db : List Record)
    (h : truthy (r.get attr) = false) :
    minLength r attr tv m = .ok () ∧ maxLength r attr tv m = .ok () ∧
    pattern r attr tv m = .ok () ∧ unique db r attr tv m = .ok () := by
  refine ⟨?_, ?_, ?_, ?_⟩ <;> simp [minLength, maxLength, pattern, unique, h]

theorem falsy_short_circuit_c2_witness :
    minLength ⟨[]⟩ "name" (.num (.int 3)) none = .ok () ∧
    maxLength ⟨[]⟩ "name" (.num (.int 3)) none = .ok () ∧
    pattern ⟨[]⟩ "name" (.num (.int 3)) none = .ok () ∧
    unique [] ⟨[]⟩ "name" (.num (.int 3)) none = .ok () :=
  falsy_short_circuit_c2 ⟨[]⟩ "name" (.num (.int 3)) none [] (by decide)

/-- C3: `required` fails with the message `"<attribute> is required"` (or
the supplied custom message) exactly when the current value is falsy, and
passes otherwise.  Stated for attribute names free of a `#\x7b` placeholder
opener (the `fmt` loop rescans the substituted text) and for nonempty
custom messages (an empty custom message is falsy in JavaScript and falls
back to the default). -/
theorem required_falsy_c3 (r : Record) (attr : String) (tv : JSVal)
    (hattr : noHashBrace attr.data = true) :
    (truthy (r.get attr) = false →
      required r attr tv none = .error (attr ++ " is required") ∧
      ∀ c : String, c ≠ "" → required r attr tv (some c) = .error c) ∧
    (truthy (r.get attr) = true → ∀ m, required r attr tv m = .ok ()) := by
  constructor
  · intro h
    constructor
    · simp [required, h, resolveMsg, fmt_required attr hattr]
    · intro c hc
      simp [required, h, resolveMsg, isEmpty_false_of_ne hc]
  · intro h m
    simp [required, h]

theorem required_falsy_c3_witness :
    required ⟨[]⟩ "name" (.bool true) none = .error "name is required" ∧
    required ⟨[("name", .str "Jonathan")]⟩ "name" (.bool true) none = .ok () :=
  ⟨((required_falsy_c3 ⟨[]⟩ "name" (.bool true) (by decide)).1 (by decide)).1,
   (required_falsy_c3 ⟨[("name", .str "Jonathan")]⟩ "name" (.bool true)
     (by decide)).2 (by decide) none⟩

/-- C4: for a truthy attribute value, `unique` queries the backing
collection for a record with the same attribute value and fails with
`"<attribute> must be unique"` exactly when one is found whose id differs
from the current record's id; it passes when nothing is found or when the
found record's id equals `record.get('id')`. -/
theorem unique_other_record_c4 (db : List Record) (r : Record) (attr : String)
    (tv : JSVal) (m : Option String)
    (ht : truthy (r.get attr) = true)
    (hattr : noHashBrace attr.data = true) :
    (db.find? (fun rec => jsStrictEq (rec.get attr) (r.get attr)) = none →
      unique db r attr tv m = .ok ()) ∧
    (∀ f, db.find? (fun rec => jsStrictEq (rec.get attr) (r.get attr)) = some f →
      (jsStrictEq (f.get "id") (r.get "id") = true →
        unique db r attr tv m = .ok ()) ∧
      (jsStrictEq (f.get "id") (r.get "id") = false →
        unique db r attr tv m = .error (resolveMsg m (attr ++ " must be unique")))) := by
  constructor
  · intro h
    simp [unique, ht, h]
  · intro f hf
    constructor
    · intro hid
      simp [unique, ht, hf, hid]
    · intro hid
      simp [unique, ht, hf, hid, fmt_unique attr hattr]

theorem unique_other_record_c4_witness :
    unique [⟨[("name", .str "name"), ("id", .num (.int 1))]⟩]
      ⟨[("name", .str "name"), ("id", .num (.int 2))]⟩ "name" (.bool true) none =
      .error "name must be unique" ∧
    unique [⟨[("name", .str "name"), ("id", .num (.int 1))]⟩]
      ⟨[("name", .str "name"), ("id", .num (.int 1))]⟩ "name" (.bool true) none =
      .ok () ∧
    unique [] ⟨[("name", .str "name2"), ("id", .num (.int 1))]⟩ "name"
      (.bool true) none = .ok () := by
  refine ⟨?_, ?_, ?_⟩
  · exact ((unique_other_record_c4 [⟨[("name", .str "name"), ("id", .num (.int 1))]⟩]
      ⟨[("name", .str "name"), ("id", .num (.int 2))]⟩ "name" (.bool true) none
      (by decide) (by decide)).2 ⟨[("name", .str "name"), ("id", .num (.int 1))]⟩
      rfl).2 (by decide)
  · exact ((unique_other_record_c4 [⟨[("name", .str "name"), ("id", .num (.int 1))]⟩]
      ⟨[("name", .str "name"), ("id", .num (.int 1))]⟩ "name" (.bool true) none
      (by decide) (by decide)).2 ⟨[("name", .str "name"), ("id", .num (.int 1))]⟩
      rfl).1 (by decide)
  · exact (unique_other_record_c4 [] ⟨[("name", .str "name2"), ("id", .num (.int 1))]⟩
      "name" (.bool true) none (by decide) (by decide)).1 rfl

/-- C5: `match` passes exactly when the two attribute values are strictly
equal (`===`), so both attributes being `undefined` passes; otherwise it
fails with `"<attribute> must match <otherAttribute>"` (or the supplied
nonempty custom message).  Strict equality, not truthiness, decides the
outcome. -/
theorem match_strict_eq_c5 (r : Record) (a b : String)
    (ha : noHashBrace a.data = true) (hb : noHashBrace b.data = true) :
    (∀ m, matchRule r a (.str b) m = .ok () ↔
      jsStrictEq (r.get a) (r.get b) = true) ∧
    (jsStrictEq (r.get a) (r.get b) = false →
      matchRule r a (.str b) none = .error (a ++ (" must match " ++ b)) ∧
      ∀ c : String, c ≠ "" → matchRule r a (.str b) (some c) = .error c) ∧
    (r.get a = .undefined → r.get b = .undefined →
      ∀ m, matchRule r a (.str b) m = .ok ()) := by
  refine ⟨?_, ?_, ?_⟩
  · intro m
    cases h : jsStrictEq (r.get a) (r.get b) <;> simp [matchRule, jsToString, h]
  · intro h
    constructor
    · simp [matchRule, jsToString, h, resolveMsg, fmt_match a b ha hb]
    · intro c hc
      simp [matchRule, jsToString, h, resolveMsg, isEmpty_false_of_ne hc]
  · intro hua hub m
    simp [matchRule, jsToString, hua, hub, jsStrictEq]

theorem match_strict_eq_c5_witness :
    matchRule ⟨[("x", .str "v"), ("y", .str "w")]⟩ "x" (.str "y") none =
      .error "x must match y" ∧
    matchRule ⟨[]⟩ "p" (.str "q") none = .ok () :=
  ⟨((match_strict_eq_c5 ⟨[("x", .str "v"), ("y", .str "w")]⟩ "x" "y"
      (by decide) (by decide)).2.1 (by decide)).1,
   (match_strict_eq_c5 ⟨[]⟩ "p" "q" (by decide) (by decide)).2.2 rfl rfl none⟩

/-- C6: for a truthy attribute value, `minLength` fails with the default
message `"<attribute> must be at least <n> characters long"` exactly when
the value's length is below the bound, `maxLength` fails with
`"<attribute> must be at most <n> characters long"` exactly when it
exceeds the bound, and a length equal to the bound passes both. -/
theorem length_bounds_c6 (r : Record) (attr : String) (n : Int)
    (hattr : noHashBrace attr.data = true)
    (hn : noHashBrace (toString n).data = true)
    (ht : truthy (r.get attr) = true) :
    (minLength r attr (.num (.int n)) none = .ok () ↔
      ¬∃ len, lengthOf (r.get attr) = some len ∧ (len : Int) < n) ∧
    (∀ len, lengthOf (r.get attr) = some len → (len : Int) < n →
      minLength r attr (.num (.int n)) none =
        .error (attr ++ (" must be at least " ++ (toString n ++ " characters long")))) ∧
    (maxLength r attr (.num (.int n)) none = .ok () ↔
      ¬∃ len, lengthOf (r.get attr) = some len ∧ (len : Int) > n) ∧
    (∀ len, lengthOf (r.get attr) = some len → (len : Int) > n →
      maxLength r attr (.num (.int n)) none =
        .error (attr ++ (" must be at most " ++ (toString n ++ " characters long")))) ∧
    (∀ len, lengthOf (r.get attr) = some len → (len : Int) = n →
      minLength r attr (.num (.int n)) none = .ok () ∧
      maxLength r attr (.num (.int n)) none = .ok ()) := by
  refine ⟨?_, ?_, ?_, ?_, ?_⟩
  · cases hl : lengthOf (r.get attr) with
    | none => simp [minLength, ht, lengthLt, hl, toNumber]
    | some len =>
      by_cases hlt : (len : Int) < n <;>
        simp [minLength, ht, lengthLt, hl, toNumber, hlt]
  · intro len hlen hlt
    simp [minLength, ht, resolveMsg, jsToString, lengthLt, hlen, toNumber, hlt,
      fmt_minLength attr (toString n) hattr hn]
  · cases hl : lengthOf (r.get attr) with
    | none => simp [maxLength, ht, lengthGt, hl, toNumber]
    | some len =>
      by_cases hgt : (len : Int) > n <;>
        simp [maxLength, ht, lengthGt, hl, toNumber, hgt]
  · intro len hlen hgt
    simp [maxLength, ht, resolveMsg, jsToString, lengthGt, hlen, toNumber, hgt,
      fmt_maxLength attr (toString n) hattr hn]
  · intro len hlen heq
    constructor <;>
      simp [minLength, maxLength, ht, lengthLt, lengthGt, hlen, toNumber, heq]

theorem length_bounds_c6_witness :
    minLength ⟨[("name", .str "xx")]⟩ "name" (.num (.int 3)) none =
      .error "name must be at least 3 characters long" ∧
    maxLength ⟨[("name", .str "xxxx")]⟩ "name" (.num (.int 3)) none =
      .error "name must be at most 3 characters long" ∧
    minLength ⟨[("name", .str "xxx")]⟩ "name" (.num (.int 3)) none = .ok () ∧
    maxLength ⟨[("name", .str "xxx")]⟩ "name" (.num (.int 3)) none = .ok () := by
  refine ⟨?_, ?_, ?_, ?_⟩
  · exact (length_bounds_c6 ⟨[("name", .str "xx")]⟩ "name" 3 (by decide)
      (by decide) (by decide)).2.1 2 rfl (by decide)
  · exact (length_bounds_c6 ⟨[("name", .str "xxxx")]⟩ "name" 3 (by decide)
      (by decide) (by decide)).2.2.2.1 4 rfl (by decide)
  · exact ((length_bounds_c6 ⟨[("name", .str "xxx")]⟩ "name" 3 (by decide)
      (by decide) (by decide)).2.2.2.2 3 rfl (by decide)).1
  · exact ((length_bounds_c6 ⟨[("name", .str "xxx")]⟩ "name" 3 (by decide)
      (by decide) (by decide)).2.2.2.2 3 rfl (by decide)).2

/-- C10: `required` passes exactly when the current value lies outside the
six JavaScript falsy values, so an empty array counts as present. -/
theorem required_truthy_set_c10 (r : Record) (attr : String) (tv : JSVal)
    (m : Option String) :
    (required r attr tv m = .ok () ↔
      ¬(r.get attr = .undefined ∨ r.get attr = .null ∨ r.get attr = .bool false ∨
        r.get attr = .num .nan ∨ r.get attr = .num (.int 0) ∨
        r.get attr = .str "")) ∧
    required ⟨[("tags", .arr [])]⟩ "tags" tv m = .ok () := by
  constructor
  · rw [← truthy_eq_false_iff]
    cases h : truthy (r.get attr) <;> simp [required, h]
  · have h : truthy (Record.get ⟨[("tags", .arr [])]⟩ "tags") = true := by decide
    simp [required, h]

/-! ### Aggregation: `validate()` -/

/-- Outcome of one declared rule entry; meaningful under the hypothesis
that every declared name is a rule name, where `dispatch` is always
`some`. -/
def runEntry (db : List Record) (r : Record) (e : String × String × RuleArg) :
    Except String Unit :=
  (dispatch db r e.2.1 e.1 (resolveArg e.2.2).1 (resolveArg e.2.2).2).getD (.ok ())

/-- Every declared rule name is one of the six rules. -/
def allRuleNames (vs : Validations) : Bool :=
  (flattenRules vs).all (fun e => isRuleName e.2.1)

/-- The failure messages of the declared rules, one per failed rule, in
declaration order. -/
def declaredFailureMessages (db : List Record) (r : Record) (vs : Validations) :
    List String :=
  ((flattenRules vs).map (runEntry db r)).filterMap (fun res =>
    match res with
    | .error m => some m
    | .ok _ => none)

theorem dispatch_isSome_of_ruleName (db : List Record) (r : Record)
    (name attr : String) (tv : JSVal) (m : Option String)
    (h : isRuleName name = true) :
    ∃ res, dispatch db r name attr tv m = some res := by
  simp only [isRuleName, Bool.or_eq_true, beq_iff_eq] at h
  rcases h with ((((h | h) | h) | h) | h) | h <;> subst h <;> exact ⟨_, rfl⟩

theorem dispatch_isSome_of_swallowed (db : List Record) (r : Record)
    (name attr : String) (tv : JSVal) (m : Option String)
    (h : isSwallowedName name = true) :
    ∃ res, dispatch db r name attr tv m = some res := by
  simp only [isSwallowedName, Bool.or_eq_true, beq_iff_eq] at h
  rcases h with ((((((h | h) | h) | h) | h) | h) | h) | h <;> subst h <;>
    exact ⟨_, rfl⟩

theorem dispatch_eq_none_of {name : String} (db : List Record) (r : Record)
    (attr : String) (tv : JSVal) (m : Option String)
    (h : isRuleName name = false) (hsw : isSwallowedName name = false) :
    dispatch db r name attr tv m = none := by
  simp only [isRuleName, Bool.or_eq_false_iff, beq_eq_false_iff_ne] at h
  obtain ⟨⟨⟨⟨⟨h1, h2⟩, h3⟩, h4⟩, h5⟩, h6⟩ := h
  simp [dispatch, h1, h2, h3, h4, h5, h6, hsw]

theorem buildResults_of_allKnown (db : List Record) (r : Record) :
    ∀ l : List (String × String × RuleArg),
    l.all (fun e => isRuleName e.2.1) = true →
    buildResults db r l = .ok (l.map (runEntry db r))
  | [], _ => rfl
  | (attr, name, arg) :: rest, h => by
    rw [List.all_cons, Bool.and_eq_true] at h
    obtain ⟨hname, hrest⟩ := h
    obtain ⟨res, hres⟩ := dispatch_isSome_of_ruleName db r name attr
      (resolveArg arg).1 (resolveArg arg).2 hname
    simp only [buildResults]
    rw [hres, buildResults_of_allKnown db r rest hrest]
    simp [runEntry, hres]

/-- The promise-array construction aborts with the name of the first
declared entry whose name does not resolve to a callable member. -/
theorem buildResults_error_of_find (db : List Record) (r : Record) :
    ∀ (l : List (String × String × RuleArg)) (e : String × String × RuleArg),
    l.find? (fun e => !(isRuleName e.2.1 || isSwallowedName e.2.1)) = some e →
    buildResults db r l = .error e.2.1
  | [], e, h => by simp at h
  | (attr, name, arg) :: rest, e, h => by
    cases hnc : (isRuleName name || isSwallowedName name) with
    | false =>
      rw [List.find?_cons_of_pos _ (by simp [hnc])] at h
      obtain rfl := Option.some.inj h
      have hcomp : isRuleName name = false ∧ isSwallowedName name = false := by
        simpa using hnc
      have hd := dispatch_eq_none_of db r attr (resolveArg arg).1
        (resolveArg arg).2 hcomp.1 hcomp.2
      simp [buildResults, hd]
    | true =>
      rw [List.find?_cons_of_neg _ (by simp [hnc])] at h
      have hsome : ∃ res, dispatch db r name attr (resolveArg arg).1
          (resolveArg arg).2 = some res := by
        rcases (by simpa using hnc : isRuleName name = true ∨
            isSwallowedName name = true) with hr | hs
        · exact dispatch_isSome_of_ruleName db r name attr _ _ hr
        · exact dispatch_isSome_of_swallowed db r name attr _ _ hs
      obtain ⟨res, hres⟩ := hsome
      simp only [buildResults]
      rw [hres, buildResults_error_of_find db r rest e h]

/-- Test for the regex literal of the spec's `validate()` example (source
text "name dash" anchored at the start): it matches exactly the strings
beginning with the prefix "name-". -/
def namePrefixTest (s : String) : Bool := ("name-").data.isPrefixOf s.data

/-- The record of the spec's `validate()` example: `name = 'Jonathan Clem'`
and no `location`. -/
def exRecord : Record := ⟨[("name", .str "Jonathan Clem")]⟩

/-- The rule map of the spec's `validate()` example. -/
def exValidations : Validations :=
  [("location", [("required", .raw (.bool true))]),
   ("name", [("pattern", .raw (.regex "/^name-/" namePrefixTest)),
             ("maxLength", .structured (.num (.int 10))
               (some "name must be less than 11 characters long"))])]

/-- C1: when every declared rule name is one of the six rules, `validate()`
resolves exactly when no declared rule fails, and otherwise rejects with
the full ordered list of failure messages, one per failed rule, in
declaration order (attribute iteration order, then rule order within each
attribute) — never a subset and never completion order.  On the spec's
example record the three messages appear in declared order. -/
theorem validate_ordered_messages_c1 :
    (∀ (db : List Record) (r : Record) (vs : Validations),
      allRuleNames vs = true →
      validate db r vs =
        if (declaredFailureMessages db r vs).isEmpty then .ok
        else .failures (declaredFailureMessages db r vs)) ∧
    validate [] exRecord exValidations =
      .failures ["location is required", "'Jonathan Clem' is not a valid name",
        "name must be less than 11 characters long"] := by
  constructor
  · intro db r vs h
    simp only [validate, buildResults_of_allKnown db r (flattenRules vs) h,
      declaredFailureMessages]
  · decide

theorem validate_ordered_messages_c1_witness :
    validate [] exRecord exValidations =
      if (declaredFailureMessages [] exRecord exValidations).isEmpty then .ok
      else .failures (declaredFailureMessages [] exRecord exValidations) :=
  validate_ordered_messages_c1.1 [] exRecord exValidations (by decide)

/-- Regex test for `/^[a-z]+$/`: one or more lowercase ASCII letters
spanning the whole string. -/
def lowerAlphaTest (s : String) : Bool :=
  !s.data.isEmpty && s.data.all (fun c => 'a' ≤ c && c ≤ 'z')

/-- Modelled from the claim's words for comparison with the source: the
`pattern` template filled positionally with (attribute name, then test
value), the order the claim asserts for every rule's default message.  The
source's call site instead supplies (current value, then attribute
name). -/
def specPositionalPatternMessage (attr testValue : String) : String :=
  fmt patternTemplate [attr, testValue]

/-- C7 (counterexample): `pattern`'s default message does not follow the
claimed positional (attribute name, then test value) order: on a record
with `name = '!'` the produced message quotes the record's value `'!'`
first, not the attribute name, so it differs from the message predicted by
the claim. -/
theorem pattern_message_order_c7_counterexample :
    pattern ⟨[("name", .str "!")]⟩ "name" (.regex "/^[a-z]+$/" lowerAlphaTest)
      none = .error "'!' is not a valid name" ∧
    specPositionalPatternMessage "name" "/^[a-z]+$/" =
      "'name' is not a valid /^[a-z]+$/" ∧
    ("'!' is not a valid name" : String) ≠ "'name' is not a valid /^[a-z]+$/" := by
  refine ⟨rfl, rfl, by decide⟩

/-- C7 (amended): every default message is produced by filling the
template's ordered placeholders positionally from the supplied argument
list, preserving the literal template text; `required`, `match`,
`minLength`, `maxLength` and `unique` supply (attribute name, then test
value), while `pattern` supplies (current attribute value, then attribute
name), yielding `"'<value>' is not a valid <attribute>"`. -/
theorem default_messages_positional_c7 (a v nstr : String)
    (ha : noHashBrace a.data = true) (hv : noHashBrace v.data = true)
    (hn : noHashBrace nstr.data = true) :
    fmt requiredTemplate [a] = a ++ " is required" ∧
    fmt matchTemplate [a, v] = a ++ (" must match " ++ v) ∧
    fmt minLengthTemplate [a, nstr] =
      a ++ (" must be at least " ++ (nstr ++ " characters long")) ∧
    fmt maxLengthTemplate [a, nstr] =
      a ++ (" must be at most " ++ (nstr ++ " characters long")) ∧
    fmt uniqueTemplate [a] = a ++ " must be unique" ∧
    fmt patternTemplate [v, a] = "'" ++ (v ++ ("' is not a valid " ++ a)) ∧
    (∀ (r : Record) (tv : JSVal), truthy (r.get a) = true →
      jsMatch (r.get a) tv = false →
      pattern r a tv none = .error (fmt patternTemplate [jsToString (r.get a), a])) :=
  ⟨fmt_required a ha, fmt_match a v ha hv, fmt_minLength a nstr ha hn,
   fmt_maxLength a nstr ha hn, fmt_unique a ha, fmt_pattern v a hv ha,
   fun r tv ht hm => by simp [pattern, ht, hm, resolveMsg]⟩

theorem default_messages_positional_c7_witness :
    fmt requiredTemplate ["name"] = "name is required" ∧
    fmt patternTemplate ["!", "name"] = "'!' is not a valid name" := by
  have h := default_messages_positional_c7 "name" "!" "3" (by decide) (by decide)
    (by decide)
  exact ⟨h.1, h.2.2.2.2.2.1⟩

/-- C8 (counterexample): the rule name `toString` lies outside the closed
six-rule set, yet `validate()` neither rejects with a configuration error
nor records a failure: the inherited member is called, its non-promise
result settles as fulfilled, and `validate()` resolves — the unknown name
is silently swallowed. -/
theorem validate_swallowed_c8_counterexample :
    isRuleName "toString" = false ∧
    validate [] ⟨[("name", .str "x")]⟩
      [("name", [("toString", .raw (.bool true))])] = .ok := by
  refine ⟨by decide, by decide⟩

/-- C8 (amended): a declared rule name that resolves to no callable member
at all — outside the six rules, not an inherited value-returning member,
and not one of the callable-but-unmodelled prototype members `validate`
and `constructor` — makes `validate()` reject immediately with the thrown
`TypeError` carrying that (first such) name: a distinct error kind, not a
resolution and not merged into a failure-message list.  The `hfound`
hypothesis names the first entry outside the rule/swallowed names; every
earlier entry therefore is a rule or swallowed name, where `dispatch` is
faithful, and the final hypothesis keeps the found name itself off the two
names on which the `none` branch of `dispatch` does not match the
source. -/
theorem validate_unknown_name_c8 (db : List Record) (r : Record)
    (vs : Validations) (nm : String)
    (hfound : ((flattenRules vs).find? (fun e =>
      !(isRuleName e.2.1 || isSwallowedName e.2.1))).map (fun e => e.2.1) =
      some nm)
    (_hnm : isUnmodelledName nm = false) :
    validate db r vs = .typeError nm ∧
    (∀ l, validate db r vs ≠ .failures l) ∧ validate db r vs ≠ .ok := by
  obtain ⟨e, he, hnm⟩ := Option.map_eq_some'.mp hfound
  have hb := buildResults_error_of_find db r (flattenRules vs) e he
  refine ⟨?_, ?_, ?_⟩
  · simp only [validate, hb]
    rw [hnm]
  · intro l
    simp [validate, hb]
  · simp [validate, hb]

theorem validate_unknown_name_c8_witness :
    validate [] ⟨[]⟩ [("name", [("frobnicate", .raw (.bool true))])] =
      .typeError "frobnicate" :=
  (validate_unknown_name_c8 [] ⟨[]⟩
    [("name", [("frobnicate", .raw (.bool true))])] "frobnicate" (by decide)
    (by decide)).1

/-- C9: no rule and no `validate()` call reads the record other than
through `record.get` (and none ever calls `record.set`), so two records
with the same `get` view — even structurally different ones — produce
identical outcomes everywhere; in particular calling the same rule twice
on an unchanged record and backing collection yields the same outcome both
times. -/
theorem rules_read_only_c9 (r1 r2 : Record) (h : ∀ k, r1.get k = r2.get k)
    (db : List Record) (attr : String) (tv : JSVal) (m : Option String)
    (vs : Validations) :
    required r1 attr tv m = required r2 attr tv m ∧
    matchRule r1 attr tv m = matchRule r2 attr tv m ∧
    minLength r1 attr tv m = minLength r2 attr tv m ∧
    maxLength r1 attr tv m = maxLength r2 attr tv m ∧
    pattern r1 attr tv m = pattern r2 attr tv m ∧
    unique db r1 attr tv m = unique db r2 attr tv m ∧
    validate db r1 vs = validate db r2 vs := by
  refine ⟨?_, ?_, ?_, ?_, ?_, ?_, ?_⟩
  · simp only [required, h]
  · simp only [matchRule, h]
  · simp only [minLength, h]
  · simp only [maxLength, h]
  · simp only [pattern, h]
  · simp only [unique, h]
  · have hd : ∀ l, buildResults db r1 l = buildResults db r2 l := by
      intro l
      induction l with
      | nil => rfl
      | cons e rest ih =>
        obtain ⟨attr', name', arg'⟩ := e
        have hdis : dispatch db r1 name' attr' (resolveArg arg').1
            (resolveArg arg').2 = dispatch db r2 name' attr' (resolveArg arg').1
            (resolveArg arg').2 := by
          simp only [dispatch, required, matchRule, minLength, maxLength,
            pattern, unique, h]
        simp only [buildResults, hdis, ih]
    simp only [validate, hd]

theorem rules_read_only_c9_witness :
    validate [] ⟨[("a", .str "x")]⟩ [("a", [("required", .raw (.bool true))])] =
      validate [] ⟨[("a", .str "x"), ("a", .str "y")]⟩
        [("a", [("required", .raw (.bool true))])] :=
  (rules_read_only_c9 ⟨[("a", .str "x")]⟩ ⟨[("a", .str "x"), ("a", .str "y")]⟩
    (fun k => by by_cases hk : ("a" == k) = true <;>
      simp [Record.get, List.find?, hk])
    [] "a" (.bool true) none
    [("a", [("required", .raw (.bool true))])]).2.2.2.2.2.2

end BookshelfValidators
